import Mathlib

/-!
Verification development for the NUSched schedule-normalization and
calendar-export pipeline (`src/nusched.py`).

The Python source is shallowly embedded below.  JSON values decoded by the
transport layer are modelled by the inductive type `Json` (numbers are
modelled as integers; the schedule payloads contain no fractional numbers).
Python functions that can raise an exception on structurally odd input are
modelled in the `Except String` monad, where `.error` marks a raised
exception.  Strings are ASCII-level models: Python's `str.strip`, `str.lower`
and the regular-expression character classes are modelled on the ASCII
whitespace and digit sets, which covers every string the claims mention.
Dates (`datetime` values at midnight) are modelled by their proleptic
Gregorian ordinal (`1` = January 1 of year 1, matching
`datetime.toordinal`), so `weekday()` is `(ordinal + 6) % 7` with Monday = 0.
-/

/-- A decoded JSON value (the result of `json.loads` / `resp.json()`).
Python `None` and JSON `null` coincide, and objects are association lists in
insertion order with distinct keys, matching `dict`. -/
inductive Json where
  | null : Json
  | bool : Bool → Json
  | num : Int → Json
  | str : String → Json
  | arr : List Json → Json
  | obj : List (String × Json) → Json

/-- Python truthiness of a decoded JSON value (`bool(x)`). -/
def truthy : Json → Bool
  | .null => false
  | .bool b => b
  | .num n => n != 0
  | .str s => s != ""
  | .arr xs => !xs.isEmpty
  | .obj kvs => !kvs.isEmpty

/-- Association-list lookup on an object's key/value pairs (`dict.get` with
an explicit default). -/
def jGetD (kvs : List (String × Json)) (k : String) (d : Json) : Json :=
  match kvs.lookup k with
  | some v => v
  | none => d

/-- Lookup with Python's implicit `None` default (`dict.get(k)`). -/
def jGet (kvs : List (String × Json)) (k : String) : Json :=
  jGetD kvs k .null

/-- Python `a or b`: the first operand when truthy, else the second. -/
def jOr (a b : Json) : Json :=
  if truthy a then a else b

/-- ASCII whitespace, the characters Python's `str.strip` and the regex
class matches on the payloads in scope. -/
def isPySpace (c : Char) : Bool :=
  c = ' ' || c = '\t' || c = '\n' || c = '\r' || c = '\x0b' || c = '\x0c'

/-- ASCII digit test (the `\d` class restricted to ASCII). -/
def isDig (c : Char) : Bool :=
  48 ≤ c.toNat && c.toNat ≤ 57

/-- Numeric value of an ASCII digit character. -/
def digitVal (c : Char) : Nat :=
  c.toNat - 48

/-- Python `str.strip` on a character list: drop ASCII whitespace from both
ends. -/
def pyStrip (l : List Char) : List Char :=
  ((l.dropWhile isPySpace).reverse.dropWhile isPySpace).reverse

/-- `str.strip` on a `String`. -/
def pyStripS (s : String) : String :=
  String.mk (pyStrip s.data)

/-- Python `str.lower` restricted to ASCII letters. -/
def pyLowerS (s : String) : String :=
  String.mk (s.data.map Char.toLower)

/-- Drop leading ASCII whitespace (the greedy regex atom for whitespace
between the minutes and the AM/PM marker). -/
def skipPySpaces (l : List Char) : List Char :=
  l.dropWhile isPySpace

/-- One-digit-hour alternative of the anchored pattern for an hour/minute
group: a digit, a colon, then exactly two digits; the remaining characters
are unconstrained. -/
def matchHM1 (cs : List Char) : Option (Nat × Nat × List Char) :=
  match cs with
  | a :: b :: c :: d :: rest =>
      if isDig a && b = ':' && isDig c && isDig d then
        some (digitVal a, 10 * digitVal c + digitVal d, rest)
      else none
  | _ => none

/-- Anchored match of the hour/minute part shared by both time regexes: one
or two digits, a colon, exactly two digits.  The two-digit hour alternative
is tried first, matching the greedy `{1,2}` quantifier; when its shape fits
but a character is not a digit, the regex engine's fallback to the one-digit
alternative cannot succeed either unless the second character is the colon,
which `matchHM1` checks. -/
def matchHM (cs : List Char) : Option (Nat × Nat × List Char) :=
  match cs with
  | a :: b :: c :: d :: e :: rest =>
      if isDig a && isDig b && c = ':' && isDig d && isDig e then
        some (10 * digitVal a + digitVal b, 10 * digitVal d + digitVal e, rest)
      else matchHM1 cs
  | _ => matchHM1 cs

/-- The AM/PM alternation of the 12-hour regex, written exactly as the
source's case-sensitive alternatives `AM|PM|am|pm`.  Returns `true` for a
PM marker.  Characters after the marker are unconstrained (the regex is
anchored only at the start). -/
def matchAMPM (cs : List Char) : Option Bool :=
  match cs with
  | 'A' :: 'M' :: _ => some false
  | 'P' :: 'M' :: _ => some true
  | 'a' :: 'm' :: _ => some false
  | 'p' :: 'm' :: _ => some true
  | _ => none

/-- The 12-hour regex of `_parse_time`: hour/minute group, optional
whitespace, then the case-sensitive AM/PM alternation. -/
def match12 (cs : List Char) : Option (Nat × Nat × Bool) :=
  match matchHM cs with
  | some (h, mn, rest) =>
      match matchAMPM (skipPySpaces rest) with
      | some pm => some (h, mn, pm)
      | none => none
  | none => none

/-- `_parse_time` on an actual string: empty strings fail, otherwise the
input is stripped, the 12-hour regex is tried (converting to 24-hour), then
the bare hour/minute regex, else `None`. -/
def parse_time_str (s : String) : Option (Nat × Nat) :=
  if s.data.isEmpty then none
  else
    let cs := pyStrip s.data
    match match12 cs with
    | some (h, mn, pm) =>
        let h2 := if pm && h ≠ 12 then h + 12 else if !pm && h = 12 then 0 else h
        some (h2, mn)
    | none =>
        match matchHM cs with
        | some (h, mn, _) => some (h, mn)
        | none => none

/-- `_parse_time` as called on a raw payload value: a falsy value returns
`None`; a truthy non-string raises `AttributeError` at `time_str.strip()`. -/
def parse_time (v : Json) : Except String (Option (Nat × Nat)) :=
  if !truthy v then .ok none
  else
    match v with
    | .str s => .ok (parse_time_str s)
    | _ => .error "AttributeError"

/-- The `DAY_TO_BYDAY` constant: day name or abbreviation to RRULE BYDAY
code. -/
def DAY_TO_BYDAY : List (String × String) :=
  [("sunday", "SU"), ("monday", "MO"), ("tuesday", "TU"),
   ("wednesday", "WE"), ("thursday", "TH"), ("friday", "FR"), ("saturday", "SA"),
   ("sun", "SU"), ("mon", "MO"), ("tue", "TU"), ("wed", "WE"),
   ("thu", "TH"), ("fri", "FR"), ("sat", "SA"),
   ("su", "SU"), ("mo", "MO"), ("tu", "TU"), ("we", "WE"),
   ("th", "TH"), ("fr", "FR"), ("sa", "SA")]

/-- The `BYDAY_TO_WEEKDAY` constant: BYDAY code to Python weekday number
(Monday = 0 … Sunday = 6). -/
def BYDAY_TO_WEEKDAY : List (String × Nat) :=
  [("MO", 0), ("TU", 1), ("WE", 2), ("TH", 3), ("FR", 4), ("SA", 5), ("SU", 6)]

/-- `_normalize_day` on an actual string: falsy input gives `None`, else the
stripped, lowercased text is looked up in `DAY_TO_BYDAY`. -/
def normalize_day_str (s : String) : Option String :=
  if s.data.isEmpty then none
  else DAY_TO_BYDAY.lookup (pyLowerS (pyStripS s))

/-- `_normalize_day` on a raw payload value: a falsy value returns `None`; a
truthy non-string raises `AttributeError` at `day_str.strip()`. -/
def normalize_day (v : Json) : Except String (Option String) :=
  if !truthy v then .ok none
  else
    match v with
    | .str s => .ok (normalize_day_str s)
    | _ => .error "AttributeError"

/-- The name-part key sequence tried by `_extract_instructor_name` for a
mapping without a usable `fullName`. -/
def instructorPartKeys : List String :=
  ["firstName", "first", "middleName", "middle", "lastName", "last", "lastNamePrefix"]

/-- The name-part collection loop of `_extract_instructor_name`: for each
key, a truthy value with non-empty stripped text is appended; a truthy
non-string raises `AttributeError` at `val.strip()`. -/
def collectNameParts (kvs : List (String × Json)) :
    List String → Except String (List String)
  | [] => .ok []
  | k :: rest => do
      let v := jGetD kvs k (.str "")
      let part ←
        (match v with
         | .str s =>
             if truthy (Json.str s) && !(pyStripS s).isEmpty then
               .ok [pyStripS s]
             else .ok []
         | _ =>
             if truthy v then .error "AttributeError" else .ok [])
      let more ← collectNameParts kvs rest
      .ok (part ++ more)

/-- `_extract_instructor_name`: a string is stripped; a mapping prefers a
truthy `fullName` with non-empty stripped text, else joins its stripped
name parts with single spaces; any other value yields the empty string.
A truthy non-string `fullName` or name part raises `AttributeError`. -/
def extract_instructor_name (instructor : Json) : Except String String :=
  match instructor with
  | .str s => .ok (pyStripS s)
  | .obj kvs =>
      let fullV := jOr (jGetD kvs "fullName" (.str "")) (.str "")
      (match fullV with
       | .str full =>
           if !(pyStripS full).isEmpty then .ok (pyStripS full)
           else do
             let parts ← collectNameParts kvs instructorPartKeys
             .ok (String.intercalate " " parts)
       | _ => .error "AttributeError")
  | _ => .ok ""

mutual

/-- Python `str()` on a decoded JSON value, with `repr` used for elements of
containers.  The `repr` of strings is modelled without Python's quote-choice
and escape refinements; no claim depends on the `repr` of a container. -/
def pyStr : Json → String
  | .null => "None"
  | .bool true => "True"
  | .bool false => "False"
  | .num n => toString n
  | .str s => s
  | .arr xs => "[" ++ pyReprList xs ++ "]"
  | .obj kvs => "\x7b" ++ pyReprObj kvs ++ "\x7d"

def pyRepr : Json → String
  | .null => "None"
  | .bool true => "True"
  | .bool false => "False"
  | .num n => toString n
  | .str s =>
      String.mk [Char.ofNat 39] ++ s ++ String.mk [Char.ofNat 39]
  | .arr xs => "[" ++ pyReprList xs ++ "]"
  | .obj kvs => "\x7b" ++ pyReprObj kvs ++ "\x7d"

def pyReprList : List Json → String
  | [] => ""
  | [x] => pyRepr x
  | x :: xs => pyRepr x ++ ", " ++ pyReprList xs

def pyReprObj : List (String × Json) → String
  | [] => ""
  | [(k, v)] => pyRepr (.str k) ++ ": " ++ pyRepr v
  | (k, v) :: kvs => pyRepr (.str k) ++ ": " ++ pyRepr v ++ ", " ++ pyReprObj kvs

end

/-- Flattening of one `sections` entry inside `_extract_sections`: a nested
list contributes its mapping elements, a direct mapping contributes itself,
anything else is ignored. -/
def flattenSectionItem (item : Json) : List Json :=
  match item with
  | .arr secs => secs.filter (fun sec => match sec with | .obj _ => true | _ => false)
  | .obj kvs => [.obj kvs]
  | _ => []

/-- Collection phase of `_extract_sections` over the `schedule` list: for
each mapping block, flatten its `sections` list one level. -/
def collectScheduleSections (scheduleList : List Json) : List Json :=
  scheduleList.foldr
    (fun block acc =>
      match block with
      | .obj kvs =>
          (match jGetD kvs "sections" (.arr []) with
           | .arr items => (items.map flattenSectionItem).flatten ++ acc
           | _ => acc)
      | _ => acc)
    []

/-- `_extract_sections`: descend into `data` when present, read the
`schedule` (or `studentSchedule`) list, flatten each block's `sections` one
level collecting every mapping, then keep only entries whose `isRegistered`
value (defaulting to `False` when the key is absent) is truthy. -/
def extract_sections (data : Json) : List Json :=
  let inner :=
    match data with
    | .obj kvs => (match kvs.lookup "data" with | some v => v | none => .obj kvs)
    | _ => data
  match inner with
  | .obj kvs =>
      (match jOr (jGet kvs "schedule") (jOr (jGet kvs "studentSchedule") (.arr [])) with
       | .arr scheduleList =>
           (collectScheduleSections scheduleList).filter
             (fun s =>
               match s with
               | .obj skvs => truthy (jGetD skvs "isRegistered" (.bool false))
               | _ => false)
       | _ => [])
  | _ => []

/-- One course dict produced by `parse_schedule` (the spec's MeetingRecord).
The source's `section` key is named `sectionId` here because `section` is a
Lean keyword.  The `day`, `startDate` and `endDate` values are stored raw by
the builder (no `str()` conversion in the source), so they keep type `Json`;
every other text field passes through `str()` or `.strip()` and is a
`String`. -/
structure Course where
  courseName : String
  eventId : String
  eventSubType : String
  sectionId : String
  instructors : String
  day : Json
  dayCode : Option String
  startTime : Option (Nat × Nat)
  endTime : Option (Nat × Nat)
  startTimeStr : String
  endTimeStr : String
  building : String
  room : String
  startDate : Json
  endDate : Json

/-- Python `(… or … or "").strip()` applied to a payload value: strings are
stripped, and the source's `or`-chains can only deliver a non-string here
when it is truthy, in which case `.strip()` raises `AttributeError`. -/
def stripJson (v : Json) : Except String String :=
  match v with
  | .str s => .ok (pyStripS s)
  | _ => .error "AttributeError"

/-- Resolution of the instructors field in `parse_schedule`: a raw string is
used verbatim as a single name, a list maps `_extract_instructor_name` over
its elements, and any other value goes through `_extract_instructor_name`
directly; empty resolved names are dropped and the rest joined with a comma
and space. -/
def resolveInstructors (rawInstr : Json) : Except String String := do
  let names ←
    (match rawInstr with
     | .str s => .ok [s]
     | .arr xs => xs.mapM extract_instructor_name
     | _ => do
         let n ← extract_instructor_name rawInstr
         .ok [n])
  .ok (String.intercalate ", " (names.filter (fun n => !n.isEmpty)))

/-- The inner per-meeting loop of `parse_schedule`: one `Course` per mapping
in the nested schedules list, resolving day, times, building and room at the
meeting level with course-level fallbacks. -/
def buildScheduleEntries (courseName eventId eventSubType sectionId instructorStr : String)
    (bldgTop roomTop : Json) (startDateV endDateV : Json) :
    List Json → Except String (List Course)
  | [] => .ok []
  | sched :: rest => do
      match sched with
      | .obj skvs => do
          let dayDesc := jOr (jGet skvs "dayDesc") (jOr (jGet skvs "day")
            (jOr (jGet skvs "dayName") (.str "")))
          let dayCode ← normalize_day dayDesc
          let st ← parse_time (jOr (jGet skvs "startTime") (jOr (jGet skvs "start_time") (.str "")))
          let et ← parse_time (jOr (jGet skvs "endTime") (jOr (jGet skvs "end_time") (.str "")))
          let bldg := jOr (jGet skvs "bldgName") (jOr (jGet skvs "buildingName")
            (jOr (jGet skvs "building") (jOr (jGet skvs "orgName") bldgTop)))
          let rm := jOr (jGet skvs "roomId") (jOr (jGet skvs "room") roomTop)
          let stStr ← stripJson (jOr (jGet skvs "startTime") (jOr (jGet skvs "start_time") (.str "")))
          let etStr ← stripJson (jOr (jGet skvs "endTime") (jOr (jGet skvs "end_time") (.str "")))
          let more ← buildScheduleEntries courseName eventId eventSubType sectionId
            instructorStr bldgTop roomTop startDateV endDateV rest
          .ok ({ courseName := courseName, eventId := eventId,
                 eventSubType := eventSubType, sectionId := sectionId,
                 instructors := instructorStr, day := dayDesc, dayCode := dayCode,
                 startTime := st, endTime := et, startTimeStr := stStr,
                 endTimeStr := etStr, building := pyStr bldg, room := pyStr rm,
                 startDate := startDateV, endDate := endDateV } :: more)
      | _ =>
          buildScheduleEntries courseName eventId eventSubType sectionId
            instructorStr bldgTop roomTop startDateV endDateV rest

/-- The body of `parse_schedule`'s main loop for one raw section record.  A
non-mapping record raises `AttributeError` at the first `rec.get` call
(possible only through the fallback that scans top-level dict values). -/
def buildRecord (rec : Json) : Except String (List Course) := do
  match rec with
  | .obj kvs => do
      let courseNameV := jOr (jGet kvs "eventName") (jOr (jGet kvs "courseName")
        (jOr (jGet kvs "course_name") (jOr (jGet kvs "name") (.str ""))))
      let eventIdV := jOr (jGet kvs "eventId") (jOr (jGet kvs "event_id")
        (jGetD kvs "id" (.str "")))
      let eventSubTypeV := jOr (jGet kvs "eventSubType") (jOr (jGet kvs "eventSubtype")
        (jOr (jGet kvs "subType") (.str "")))
      let sectionV := jOr (jGet kvs "section") (jOr (jGet kvs "sectionId") (.str ""))
      let rawInstr := jOr (jGet kvs "instructors") (jOr (jGet kvs "instructor")
        (jOr (jGet kvs "instructorName") (jOr (jGet kvs "instructorNames") (.arr []))))
      let instructorStr ← resolveInstructors rawInstr
      let bldgTop := jOr (jGet kvs "buildingName") (jOr (jGet kvs "bldgName")
        (jOr (jGet kvs "building") (jOr (jGet kvs "orgName") (.str ""))))
      let roomTop := jOr (jGet kvs "roomId") (jOr (jGet kvs "room") (.str ""))
      let startDateV := jOr (jGet kvs "startDate") (.str "")
      let endDateV := jOr (jGet kvs "endDate") (.str "")
      let schedules := jOr (jGet kvs "schedules") (jOr (jGet kvs "scheduleTimePeriods")
        (jOr (jGet kvs "scheduleList") (jOr (jGet kvs "schedule")
          (jOr (jGet kvs "timePeriods") .null))))
      match schedules with
      | .arr (s0 :: srest) =>
          buildScheduleEntries (pyStr courseNameV) (pyStr eventIdV)
            (pyStr eventSubTypeV) (pyStr sectionV) instructorStr bldgTop roomTop
            startDateV endDateV (s0 :: srest)
      | _ => do
          let dayDesc := jOr (jGet kvs "dayDesc") (jOr (jGet kvs "day")
            (jOr (jGet kvs "dayName") (.str "")))
          let dayCode ← normalize_day dayDesc
          let st ← parse_time (jOr (jGet kvs "startTime") (jOr (jGet kvs "start_time") (.str "")))
          let et ← parse_time (jOr (jGet kvs "endTime") (jOr (jGet kvs "end_time") (.str "")))
          let stStr ← stripJson (jOr (jGet kvs "startTime") (jOr (jGet kvs "start_time") (.str "")))
          let etStr ← stripJson (jOr (jGet kvs "endTime") (jOr (jGet kvs "end_time") (.str "")))
          .ok [{ courseName := pyStr courseNameV, eventId := pyStr eventIdV,
                 eventSubType := pyStr eventSubTypeV, sectionId := pyStr sectionV,
                 instructors := instructorStr, day := dayDesc, dayCode := dayCode,
                 startTime := st, endTime := et, startTimeStr := stStr,
                 endTimeStr := etStr, building := pyStr bldgTop, room := pyStr roomTop,
                 startDate := startDateV, endDate := endDateV }]
  | _ => .error "AttributeError"

/-- Folding `buildRecord` over the extracted section list. -/
def buildAll : List Json → Except String (List Course)
  | [] => .ok []
  | rec :: rest => do
      let cs ← buildRecord rec
      let more ← buildAll rest
      .ok (cs ++ more)

/-- The degraded-mode fallback of `parse_schedule` when structured
extraction finds nothing: a top-level list keeps only its mappings, while a
top-level mapping contributes the first value that is a non-empty list whose
first element is a mapping — taken whole, without filtering out non-mapping
elements. -/
def fallbackSections (data : Json) : List Json :=
  match data with
  | .arr xs => xs.filter (fun x => match x with | .obj _ => true | _ => false)
  | .obj kvs =>
      (kvs.map Prod.snd).foldr
        (fun v acc =>
          match v with
          | .arr (x0 :: xrest) =>
              (match x0 with
               | .obj _ => x0 :: xrest
               | _ => acc)
          | _ => acc)
        []
  | _ => []

/-- `parse_schedule`: extract the registered sections, fall back to the
degraded scan when none were found, then build the flat course list. -/
def parse_schedule (data : Json) : Except String (List Course) :=
  let sections := extract_sections data
  let sections := if sections.isEmpty then fallbackSections data else sections
  buildAll sections

/-- Gregorian leap-year test. -/
def isLeapYear (y : Nat) : Bool :=
  y % 4 = 0 && (y % 100 ≠ 0 || y % 400 = 0)

/-- Days in a month of a given year. -/
def daysInMonth (y m : Nat) : Nat :=
  match m with
  | 1 => 31 | 2 => if isLeapYear y then 29 else 28 | 3 => 31
  | 4 => 30 | 5 => 31 | 6 => 30 | 7 => 31 | 8 => 31
  | 9 => 30 | 10 => 31 | 11 => 30 | _ => 31

/-- Days in the years strictly before year `y` (proleptic Gregorian). -/
def daysBeforeYear (y : Nat) : Nat :=
  let py := y - 1
  py * 365 + py / 4 - py / 100 + py / 400

/-- Days in the months of year `y` strictly before month `m`. -/
def daysBeforeMonth (y m : Nat) : Nat :=
  (match m with
   | 1 => 0 | 2 => 31 | 3 => 59 | 4 => 90 | 5 => 120 | 6 => 151
   | 7 => 181 | 8 => 212 | 9 => 243 | 10 => 273 | 11 => 304 | _ => 334)
  + (if 3 ≤ m && isLeapYear y then 1 else 0)

/-- The proleptic Gregorian ordinal of a calendar date, with ordinal 1 for
January 1 of year 1, matching `datetime.toordinal`. -/
def toOrdinal (y m d : Nat) : Nat :=
  daysBeforeYear y + daysBeforeMonth y m + d

/-- `datetime.weekday()` of an ordinal: Monday = 0 … Sunday = 6 (ordinal 1
was a Monday). -/
def weekdayOrd (o : Nat) : Nat :=
  (o + 6) % 7

/-- Month/day search within a year given a zero-based day of year, with an
explicit month countdown as fuel. -/
def monthSearch (y : Nat) : Nat → Nat → Nat → Nat × Nat
  | 0, m, doy => (m, doy + 1)
  | fuel + 1, m, doy =>
      if doy < daysInMonth y m then (m, doy + 1)
      else monthSearch y fuel (m + 1) (doy - daysInMonth y m)

/-- Inverse of `toOrdinal`: the calendar date of a proleptic Gregorian
ordinal, by the standard 400/100/4/1-year cycle decomposition. -/
def fromOrdinal (n : Nat) : Nat × Nat × Nat :=
  let n0 := n - 1
  let n400 := n0 / 146097
  let r1 := n0 % 146097
  let n100 := r1 / 36524
  let r2 := r1 % 36524
  let n4 := r2 / 1461
  let r3 := r2 % 1461
  let n1 := r3 / 365
  let r4 := r3 % 365
  if n1 = 4 || n100 = 4 then
    (400 * n400 + 100 * n100 + 4 * n4 + n1, 12, 31)
  else
    let y := 400 * n400 + 100 * n100 + 4 * n4 + n1 + 1
    let (m, d) := monthSearch y 11 1 r4
    (y, m, d)

/-- Zero-pad a number to two digits (`%02d`; wider numbers print whole). -/
def pad2 (n : Nat) : String :=
  if n < 10 then "0" ++ toString n else toString n

/-- Zero-pad a number to four digits (`%Y` as documented for `strftime`). -/
def pad4 (n : Nat) : String :=
  if n < 10 then "000" ++ toString n
  else if n < 100 then "00" ++ toString n
  else if n < 1000 then "0" ++ toString n
  else toString n

/-- `strftime("%Y%m%d")` of an ordinal date. -/
def formatYMD (o : Nat) : String :=
  let (y, m, d) := fromOrdinal o
  pad4 y ++ pad2 m ++ pad2 d

/-- `_format_ics_time`: an `(hour, minute)` pair as `HHMMSS`, with `None`
formatted as `000000`. -/
def format_ics_time (t : Option (Nat × Nat)) : String :=
  match t with
  | none => "000000"
  | some (h, mn) => pad2 h ++ pad2 mn ++ "00"

/-- The `%m` field of `strptime`: the alternation `1[0-2]|0[1-9]|[1-9]`,
two-digit alternatives first. -/
def parseMonthF (cs : List Char) : Option (Nat × List Char) :=
  match cs with
  | c1 :: c2 :: rest =>
      if c1 = '1' && 48 ≤ c2.toNat && c2.toNat ≤ 50 then
        some (10 + digitVal c2, rest)
      else if c1 = '0' && 49 ≤ c2.toNat && c2.toNat ≤ 57 then
        some (digitVal c2, rest)
      else if 49 ≤ c1.toNat && c1.toNat ≤ 57 then
        some (digitVal c1, c2 :: rest)
      else none
  | [c1] =>
      if 49 ≤ c1.toNat && c1.toNat ≤ 57 then some (digitVal c1, []) else none
  | [] => none

/-- The `%d` field of `strptime`: the alternation
`3[01]|[12]\x5cd|0[1-9]|[1-9]`, two-digit alternatives first. -/
def parseDayF (cs : List Char) : Option (Nat × List Char) :=
  match cs with
  | c1 :: c2 :: rest =>
      if c1 = '3' && (c2 = '0' || c2 = '1') then
        some (30 + digitVal c2, rest)
      else if (c1 = '1' || c1 = '2') && isDig c2 then
        some (10 * digitVal c1 + digitVal c2, rest)
      else if c1 = '0' && 49 ≤ c2.toNat && c2.toNat ≤ 57 then
        some (digitVal c2, rest)
      else if 49 ≤ c1.toNat && c1.toNat ≤ 57 then
        some (digitVal c1, c2 :: rest)
      else none
  | [c1] =>
      if 49 ≤ c1.toNat && c1.toNat ≤ 57 then some (digitVal c1, []) else none
  | [] => none

/-- The `%Y` field of `strptime`: exactly four digits. -/
def parseYear4 (cs : List Char) : Option (Nat × List Char) :=
  match cs with
  | a :: b :: c :: d :: rest =>
      if isDig a && isDig b && isDig c && isDig d then
        some (1000 * digitVal a + 100 * digitVal b + 10 * digitVal c + digitVal d, rest)
      else none
  | _ => none

/-- Run a three-field date format given its field parsers in reading order,
a separator, and a reordering of the fields into (year, month, day); the
whole input must be consumed. -/
def runDateFmt (p1 p2 p3 : List Char → Option (Nat × List Char)) (sep : Char)
    (reorder : Nat → Nat → Nat → Nat × Nat × Nat) (cs : List Char) :
    Option (Nat × Nat × Nat) :=
  match p1 cs with
  | some (v1, r1) =>
      (match r1 with
       | c :: r2 =>
           if c = sep then
             match p2 r2 with
             | some (v2, r3) =>
                 (match r3 with
                  | c2 :: r4 =>
                      if c2 = sep then
                        match p3 r4 with
                        | some (v3, r5) =>
                            if r5.isEmpty then some (reorder v1 v2 v3) else none
                        | none => none
                      else none
                  | [] => none)
             | none => none
           else none
       | [] => none)
  | none => none

/-- Validation performed by the `datetime` constructor inside `strptime`:
year at least 1 and day within the month (a failure raises `ValueError`,
which `_parse_date_str` catches to try the next format). -/
def tryDateFmt (run : List Char → Option (Nat × Nat × Nat)) (cs : List Char) :
    Option Nat :=
  match run cs with
  | some (y, m, d) =>
      if 1 ≤ y && d ≤ daysInMonth y m then some (toOrdinal y m d) else none
  | none => none

/-- `_parse_date_str` on an actual string: falsy input gives `None`, else
the stripped text is tried against `%m/%d/%Y`, `%Y-%m-%d`, `%d/%m/%Y` and
`%Y/%m/%d` in that order, the first success winning; the result is the
date's ordinal. -/
def parse_date_str (s : String) : Option Nat :=
  if s.data.isEmpty then none
  else
    let cs := pyStrip s.data
    tryDateFmt (runDateFmt parseMonthF parseDayF parseYear4 '/'
      (fun m d y => (y, m, d))) cs
    <|> tryDateFmt (runDateFmt parseYear4 parseMonthF parseDayF '-'
      (fun y m d => (y, m, d))) cs
    <|> tryDateFmt (runDateFmt parseDayF parseMonthF parseYear4 '/'
      (fun d m y => (y, m, d))) cs
    <|> tryDateFmt (runDateFmt parseYear4 parseMonthF parseDayF '/'
      (fun y m d => (y, m, d))) cs

/-- `_parse_date_str` on a raw payload value: a falsy value returns `None`;
a truthy non-string raises `AttributeError` at `date_str.strip()`. -/
def parse_date (v : Json) : Except String (Option Nat) :=
  if !truthy v then .ok none
  else
    match v with
    | .str s => .ok (parse_date_str s)
    | _ => .error "AttributeError"

/-- Python `min` over a non-empty list (returns 0 on `[]`, which the source
never does). -/
def pyMin : List Nat → Nat
  | [] => 0
  | x :: xs => xs.foldl Nat.min x

/-- Python `max` over a non-empty list (returns 0 on `[]`, which the source
never does). -/
def pyMax : List Nat → Nat
  | [] => 0
  | x :: xs => xs.foldl Nat.max x

/-- The date-collection loop of `_derive_semester_bounds`: parseable start
and end dates of every course, in course order. -/
def collectDates : List Course → Except String (List Nat × List Nat)
  | [] => .ok ([], [])
  | c :: rest => do
      let sd ← parse_date c.startDate
      let ed ← parse_date c.endDate
      let (ss, es) ← collectDates rest
      .ok ((match sd with | some x => x :: ss | none => ss),
           (match ed with | some x => x :: es | none => es))

/-- `_derive_semester_bounds`: the anchor is the earliest parseable start
date rolled back to the Sunday on or before it (falling back to
February 8, 2026), and the default until-string is the latest parseable end
date as `YYYYMMDD` (falling back to `"20260521"`). -/
def derive_semester_bounds (courses : List Course) : Except String (Nat × String) := do
  let (startDates, endDates) ← collectDates courses
  let semesterStart :=
    if !startDates.isEmpty then
      let earliest := pyMin startDates
      earliest - (weekdayOrd earliest + 1) % 7
    else toOrdinal 2026 2 8
  let untilStr :=
    if !endDates.isEmpty then formatYMD (pyMax endDates)
    else "20260521"
  .ok (semesterStart, untilStr)

/-- Python `str.replace` for a single-character pattern: every occurrence of
`c` becomes `repl`, left to right, without rescanning the replacement. -/
def pyReplace1 (c : Char) (repl : List Char) : List Char → List Char
  | [] => []
  | x :: xs => (if x = c then repl else [x]) ++ pyReplace1 c repl xs

/-- `_ics_escape` on a character list: escape backslash first, then comma,
semicolon, and newline (the newline becomes a backslash followed by the
letter `n`). -/
def ics_escape (l : List Char) : List Char :=
  let t1 := pyReplace1 '\\' ['\\', '\\'] l
  let t2 := pyReplace1 ',' ['\\', ','] t1
  let t3 := pyReplace1 ';' ['\\', ';'] t2
  pyReplace1 '\n' ['\\', 'n'] t3

/-- `_ics_escape` on a `String`. -/
def ics_escapeS (s : String) : String :=
  String.mk (ics_escape s.data)

/-- Unescaping performed by a compliant iCalendar reader (RFC 5545 text
values): a backslash followed by `n` or `N` is a newline, and a backslash
followed by any other character stands for that character. -/
def ical_unescape : List Char → List Char
  | [] => []
  | '\\' :: c :: rest => (if c = 'n' || c = 'N' then '\n' else c) :: ical_unescape rest
  | c :: rest => c :: ical_unescape rest

/-- The SUMMARY text of one event: course name, with the subtype appended
after a dash when the subtype is truthy. -/
def summaryOf (c : Course) : String :=
  if !c.eventSubType.isEmpty then c.courseName ++ " - " ++ c.eventSubType
  else c.courseName

/-- The LOCATION text of one event: building and room joined by a space and
stripped. -/
def locationOf (c : Course) : String :=
  pyStripS (c.building ++ " " ++ c.room)

/-- The DESCRIPTION text of one event: the escaped instructor list behind a
fixed prefix when the instructor list is truthy, else empty. -/
def descriptionOf (c : Course) : String :=
  if !c.instructors.isEmpty then "Instructor(s): " ++ ics_escapeS c.instructors
  else ""

/-- Truthiness of a course's `dayCode` (`None` and the empty string are
falsy). -/
def dayCodeTruthy (c : Course) : Bool :=
  match c.dayCode with
  | none => false
  | some s => !s.isEmpty

/-- The VEVENT block of one emitted course inside `generate_ics`, given the
derived semester anchor and default until-string, the shared `DTSTAMP`
value, and this event's generated UID.  Parsing the course's own end date
can raise when `endDate` holds a truthy non-string. -/
def eventBlock (c : Course) (semesterStart : Nat) (defaultUntil stamp uid : String) :
    Except String (List String) := do
  let targetWd := ((BYDAY_TO_WEEKDAY.lookup (c.dayCode.getD "")).getD (weekdayOrd semesterStart))
  let deltaDays := (((targetWd : Int) - (weekdayOrd semesterStart : Int)) % 7).toNat
  let firstDate := semesterStart + deltaDays
  let dtDateStr := formatYMD firstDate
  let edOpt ← parse_date c.endDate
  let untilStr := match edOpt with | some ed => formatYMD ed | none => defaultUntil
  let dtstart := dtDateStr ++ "T" ++ format_ics_time c.startTime
  let dtend := if c.endTime ≠ none then dtDateStr ++ "T" ++ format_ics_time c.endTime
               else dtstart
  .ok (["BEGIN:VEVENT",
        "UID:" ++ uid,
        "DTSTAMP:" ++ stamp,
        "DTSTART:" ++ dtstart,
        "DTEND:" ++ dtend,
        "RRULE:FREQ=WEEKLY;BYDAY=" ++ (c.dayCode.getD "" ++ (";UNTIL=" ++ (untilStr ++ "T000000Z"))),
        "SUMMARY:" ++ summaryOf c]
       ++ (if !(descriptionOf c).isEmpty then ["DESCRIPTION:" ++ descriptionOf c] else [])
       ++ (if !(locationOf c).isEmpty then ["LOCATION:" ++ locationOf c] else [])
       ++ ["END:VEVENT"])

/-- The event loop of `generate_ics`: records with a falsy day code or a
falsy start time are skipped; each emitted record receives the UID for its
emission index. -/
def emitLoop (uidf : Nat → String) (stamp : String) (semesterStart : Nat)
    (defaultUntil : String) : List Course → Nat → Except String (List String)
  | [], _ => .ok []
  | c :: rest, i =>
      if !dayCodeTruthy c || c.startTime = none then
        emitLoop uidf stamp semesterStart defaultUntil rest i
      else do
        let block ← eventBlock c semesterStart defaultUntil stamp (uidf i)
        let more ← emitLoop uidf stamp semesterStart defaultUntil rest (i + 1)
        .ok (block ++ more)

/-- The fixed calendar envelope header of `generate_ics`. -/
def icsHeader : List String :=
  ["BEGIN:VCALENDAR",
   "VERSION:2.0",
   "PRODID:-//NUSched//Schedule Export//EN",
   "CALSCALE:GREGORIAN",
   "METHOD:PUBLISH",
   "X-WR-CALNAME:NU Schedule",
   "X-WR-TIMEZONE:Africa/Cairo"]

/-- `generate_ics` up to the final CRLF join and file write: the list of
calendar lines.  The emission timestamp (`datetime.utcnow()`) and the UID
generator (`uuid.uuid4()`), which are the two nondeterministic inputs, are
taken as parameters. -/
def generate_ics_lines (courses : List Course) (stamp : String)
    (uidf : Nat → String) : Except String (List String) := do
  let (semesterStart, defaultUntil) ← derive_semester_bounds courses
  let body ← emitLoop uidf stamp semesterStart defaultUntil courses 0
  .ok (icsHeader ++ body ++ ["END:VCALENDAR"])

/-- Number of VEVENT blocks in a produced line list: occurrences of the
literal `BEGIN:VEVENT` line. -/
def countVEVENT (lines : List String) : Nat :=
  lines.count "BEGIN:VEVENT"

/-- JSON insignificant whitespace. -/
def isJsonWs (c : Char) : Bool :=
  c = ' ' || c = '\t' || c = '\n' || c = '\r'

/-- Skip JSON insignificant whitespace. -/
def skipJsonWs (cs : List Char) : List Char :=
  cs.dropWhile isJsonWs

/-- Value of a hexadecimal digit. -/
def hexVal (c : Char) : Option Nat :=
  if 48 ≤ c.toNat && c.toNat ≤ 57 then some (c.toNat - 48)
  else if 97 ≤ c.toNat && c.toNat ≤ 102 then some (c.toNat - 87)
  else if 65 ≤ c.toNat && c.toNat ≤ 70 then some (c.toNat - 55)
  else none

/-- The opening brace character, written numerically. -/
def braceOpen : Char := Char.ofNat 123

/-- The closing brace character, written numerically. -/
def braceClose : Char := Char.ofNat 125

/-- JSON string-body scan after the opening quote, accumulating decoded
characters in reverse.  Standard escapes are decoded; unpaired-surrogate
`\x5cu` escapes (which only astral or malformed input needs) are not
modelled. -/
def jsonStringBody (fuel : Nat) (acc : List Char) (cs : List Char) :
    Option (String × List Char) :=
  match fuel with
  | 0 => none
  | fuel + 1 =>
      match cs with
      | '"' :: rest => some (String.mk acc.reverse, rest)
      | '\\' :: e :: rest =>
          (match e with
           | '"' => jsonStringBody fuel ('"' :: acc) rest
           | '\\' => jsonStringBody fuel ('\\' :: acc) rest
           | '/' => jsonStringBody fuel ('/' :: acc) rest
           | 'b' => jsonStringBody fuel ('\x08' :: acc) rest
           | 'f' => jsonStringBody fuel ('\x0c' :: acc) rest
           | 'n' => jsonStringBody fuel ('\n' :: acc) rest
           | 'r' => jsonStringBody fuel ('\r' :: acc) rest
           | 't' => jsonStringBody fuel ('\t' :: acc) rest
           | 'u' =>
               (match rest with
                | h1 :: h2 :: h3 :: h4 :: rest2 =>
                    (match hexVal h1, hexVal h2, hexVal h3, hexVal h4 with
                     | some a, some b, some c, some d =>
                         let code := 4096 * a + 256 * b + 16 * c + d
                         if 55296 ≤ code && code ≤ 57343 then none
                         else jsonStringBody fuel (Char.ofNat code :: acc) rest2
                     | _, _, _, _ => none)
                | _ => none)
           | _ => none)
      | c :: rest => if c.toNat < 32 then none else jsonStringBody fuel (c :: acc) rest
      | [] => none

/-- JSON integer literal: optional minus, then `0` or a nonzero digit run;
a following `.`, `e` or `E` would start a float, which the schedule payloads
never contain and this model rejects. -/
def jsonInt (cs : List Char) : Option (Int × List Char) :=
  let (neg, cs1) := match cs with | '-' :: r => (true, r) | _ => (false, cs)
  match cs1 with
  | [] => none
  | c :: rest =>
      if c = '0' then
        (match rest with
         | d :: _ =>
             if isDig d || d = '.' || d = 'e' || d = 'E' then none
             else some (0, rest)
         | [] => some (0, []))
      else if isDig c then
        let digits := c :: rest.takeWhile isDig
        let rest2 := rest.dropWhile isDig
        let v : Int := digits.foldl (fun a d => 10 * a + (digitVal d : Int)) 0
        (match rest2 with
         | d :: _ => if d = '.' || d = 'e' || d = 'E' then none
                     else some (if neg then -v else v, rest2)
         | [] => some (if neg then -v else v, []))
      else none

/-- Insert a key/value pair into an object under construction, replacing an
existing binding in place (Python dicts keep the first-insertion position
and the last-assigned value). -/
def insertKV (kvs : List (String × Json)) (k : String) (v : Json) :
    List (String × Json) :=
  if kvs.any (fun p => p.1 = k) then
    kvs.map (fun p => if p.1 = k then (k, v) else p)
  else kvs ++ [(k, v)]

mutual

/-- Recursive-descent JSON value parser with explicit fuel (any fuel at
least the input length suffices). -/
def jsonValue (fuel : Nat) (cs : List Char) : Option (Json × List Char) :=
  match fuel with
  | 0 => none
  | fuel + 1 =>
      match skipJsonWs cs with
      | 't' :: 'r' :: 'u' :: 'e' :: rest => some (.bool true, rest)
      | 'f' :: 'a' :: 'l' :: 's' :: 'e' :: rest => some (.bool false, rest)
      | 'n' :: 'u' :: 'l' :: 'l' :: rest => some (.null, rest)
      | '"' :: rest =>
          (match jsonStringBody (rest.length + 1) [] rest with
           | some (s, r) => some (.str s, r)
           | none => none)
      | '[' :: rest =>
          (match skipJsonWs rest with
           | ']' :: r2 => some (.arr [], r2)
           | _ => jsonArrayItems fuel rest [])
      | c :: rest =>
          if c = braceOpen then
            (match skipJsonWs rest with
             | c2 :: r2 =>
                 if c2 = braceClose then some (.obj [], r2)
                 else jsonObjectItems fuel rest []
             | [] => none)
          else
            (match jsonInt (c :: rest) with
             | some (n, r) => some (.num n, r)
             | none => none)
      | [] => none

/-- Comma-separated array items, after the opening bracket. -/
def jsonArrayItems (fuel : Nat) (cs : List Char) (acc : List Json) :
    Option (Json × List Char) :=
  match fuel with
  | 0 => none
  | fuel + 1 =>
      match jsonValue fuel cs with
      | some (v, r) =>
          (match skipJsonWs r with
           | ',' :: r2 => jsonArrayItems fuel r2 (v :: acc)
           | ']' :: r2 => some (.arr (v :: acc).reverse, r2)
           | _ => none)
      | none => none

/-- Comma-separated object members, after the opening brace. -/
def jsonObjectItems (fuel : Nat) (cs : List Char) (acc : List (String × Json)) :
    Option (Json × List Char) :=
  match fuel with
  | 0 => none
  | fuel + 1 =>
      match skipJsonWs cs with
      | '"' :: rest =>
          (match jsonStringBody (rest.length + 1) [] rest with
           | some (k, r) =>
               (match skipJsonWs r with
                | ':' :: r2 =>
                    (match jsonValue fuel r2 with
                     | some (v, r3) =>
                         let acc2 := insertKV acc k v
                         (match skipJsonWs r3 with
                          | ',' :: r4 => jsonObjectItems fuel r4 acc2
                          | c :: r4 =>
                              if c = braceClose then some (.obj acc2, r4) else none
                          | [] => none)
                     | none => none)
                | _ => none)
           | none => none)
      | _ => none

end

/-- `json.loads`: parse the whole string as one JSON value, with nothing but
whitespace allowed after it; failure models the raised `JSONDecodeError`. -/
def json_loads (s : String) : Except String Json :=
  match jsonValue (s.data.length + 2) s.data with
  | some (v, rest) =>
      if (skipJsonWs rest).isEmpty then .ok v else .error "JSONDecodeError"
  | none => .error "JSONDecodeError"

/-- The double-encoding unwrap in `fetch_schedule`: a decoded body that is
itself a string is decoded once more. -/
def unwrap_response (data : Json) : Except String Json :=
  match data with
  | .str s => json_loads s
  | _ => .ok data

/-- The pipeline composition the application runs on a fetched body:
`parse_schedule(fetch_schedule(...))`, with the HTTP transport stripped —
the unwrap of `fetch_schedule` followed by the parse. -/
def fetch_parse (data : Json) : Except String (List Course) := do
  let d ← unwrap_response data
  parse_schedule d

/-- Per-character escaping action: the composite effect of the four
sequential replacements of `_ics_escape` on a single character. -/
def escChar (x : Char) : List Char :=
  if x = '\\' then ['\\', '\\']
  else if x = ',' then ['\\', ',']
  else if x = ';' then ['\\', ';']
  else if x = '\n' then ['\\', 'n']
  else [x]

/-- The ASCII digit character of a value between 0 and 9. -/
def digitCharN (n : Nat) : Char :=
  match n with
  | 0 => '0' | 1 => '1' | 2 => '2' | 3 => '3' | 4 => '4'
  | 5 => '5' | 6 => '6' | 7 => '7' | 8 => '8' | _ => '9'

/-- The hour text of a 12-hour time string: `H` or zero-padded `HH`. -/
def hourChars (twoDigit : Bool) (h : Nat) : List Char :=
  if twoDigit then [digitCharN (h / 10), digitCharN (h % 10)]
  else [digitCharN h]

/-- The two-digit minute text of a time string. -/
def minChars (m : Nat) : List Char :=
  [digitCharN (m / 10), digitCharN (m % 10)]

/-- An AM or PM marker in one of the two uniform casings the source's
regex accepts. -/
def markChars (pm lower : Bool) : List Char :=
  if pm then (if lower then ['p', 'm'] else ['P', 'M'])
  else (if lower then ['a', 'm'] else ['A', 'M'])

/-- The 24-hour hour corresponding to a 12-hour time: `12 AM` is hour 0 and
`12 PM` is hour 12. -/
def to24 (pm : Bool) (h : Nat) : Nat :=
  if pm then (if h = 12 then 12 else h + 12)
  else (if h = 12 then 0 else h)

/-- A payload value on which `_parse_date_str` cannot raise: a string, or a
falsy value (which returns `None` before touching `.strip()`). -/
def dateOkB (v : Json) : Bool :=
  match v with
  | .str _ => true
  | _ => !truthy v

/-- A course all of whose raw date fields are safe for date parsing; every
MeetingRecord of the specification (whose `startDate`/`endDate` are
strings) satisfies this. -/
def courseDatesOk (c : Course) : Bool :=
  dateOkB c.startDate && dateOkB c.endDate

/-- The parsed date of a raw date value that cannot raise: the parse of a
string, `None` otherwise. -/
def jsonDateOpt (v : Json) : Option Nat :=
  match v with
  | .str s => parse_date_str s
  | _ => none

/-- The ordinals of the parseable `startDate` strings of a course list, in
course order. -/
def startDateOrds (courses : List Course) : List Nat :=
  courses.filterMap (fun c => jsonDateOpt c.startDate)

/-- The ordinals of the parseable `endDate` strings of a course list, in
course order. -/
def endDateOrds (courses : List Course) : List Nat :=
  courses.filterMap (fun c => jsonDateOpt c.endDate)

/-- A payload whose given section entries sit exactly on the
`data`/`schedule`/`sections` path of `_extract_sections`. -/
def mkSchedulePayload (sections : List Json) : Json :=
  .obj [("data", .obj [("schedule", .arr [.obj [("sections", .arr sections)]])])]

/-- A section mapping carrying no `isRegistered` key. -/
def sectionNoFlag : Json :=
  .obj [("eventName", .str "X")]

/-- A section mapping whose `isRegistered` flag is present and false. -/
def sectionFlagFalse : Json :=
  .obj [("eventName", .str "X"), ("isRegistered", .bool false)]

/-- A JSON-valid payload on which `parse_schedule` raises: the structured
extraction finds nothing, the top-level-list fallback keeps the mapping,
and `_parse_time` is then applied to the integer `1`. -/
def payloadStartTimeNum : Json :=
  .arr [.obj [("startTime", .num 1)]]

/-- A payload whose single record carries the unrecognized day string
`N/A` together with a valid 12-hour start time. -/
def payloadDayNA : Json :=
  .arr [.obj [("eventName", .str "X"), ("day", .str "N/A"), ("startTime", .str "10:00 AM")]]

/-- The course record `parse_schedule` builds from `payloadDayNA`. -/
def courseDayNA : Course :=
  { courseName := "X", eventId := "", eventSubType := "", sectionId := "",
    instructors := "", day := .str "N/A", dayCode := none,
    startTime := some (10, 0), endTime := none, startTimeStr := "10:00 AM",
    endTimeStr := "", building := "", room := "",
    startDate := .str "", endDate := .str "" }

/-- A minimal course carrying only date bounds, as consumed by the bounds
estimator. -/
def courseWithDates (sd ed : String) : Course :=
  { courseName := "C", eventId := "", eventSubType := "", sectionId := "",
    instructors := "", day := .str "", dayCode := none,
    startTime := none, endTime := none, startTimeStr := "",
    endTimeStr := "", building := "", room := "",
    startDate := .str sd, endDate := .str ed }

/-- A Monday-morning course whose building name ends in a newline: the
newline is inside the record's `building` field but the location text is
stripped before emission. -/
def courseNewlineBuilding : Course :=
  { courseName := "Algo", eventId := "", eventSubType := "", sectionId := "",
    instructors := "", day := .str "Monday", dayCode := some "MO",
    startTime := some (10, 0), endTime := some (11, 0), startTimeStr := "",
    endTimeStr := "", building := "Eng\n", room := "",
    startDate := .str "", endDate := .str "" }

/-- A Wednesday course with its own end date, used to exercise the
first-occurrence and until-date computation. -/
def courseWednesday : Course :=
  { courseName := "Nets", eventId := "", eventSubType := "LAB", sectionId := "",
    instructors := "B Jones", day := .str "Wednesday", dayCode := some "WE",
    startTime := some (9, 0), endTime := some (10, 30), startTimeStr := "",
    endTimeStr := "", building := "Sci", room := "12",
    startDate := .str "2/8/2026", endDate := .str "5/21/2026" }

theorem pyReplace1_append (c : Char) (r : List Char) (a b : List Char) :
    pyReplace1 c r (a ++ b) = pyReplace1 c r a ++ pyReplace1 c r b := by
  induction a with
  | nil => rfl
  | cons x xs ih => simp [pyReplace1, ih]

theorem ics_escape_cons (x : Char) (xs : List Char) :
    ics_escape (x :: xs) = escChar x ++ ics_escape xs := by
  by_cases h1 : x = '\\'
  · subst h1; simp [ics_escape, escChar, pyReplace1, pyReplace1_append]
  · by_cases h2 : x = ','
    · subst h2; simp [ics_escape, escChar, pyReplace1, pyReplace1_append]
    · by_cases h3 : x = ';'
      · subst h3; simp [ics_escape, escChar, pyReplace1, pyReplace1_append]
      · by_cases h4 : x = '\n'
        · subst h4; simp [ics_escape, escChar, pyReplace1, pyReplace1_append]
        · simp [ics_escape, escChar, pyReplace1, pyReplace1_append, h1, h2, h3, h4]

theorem ical_unescape_cons_ne (x : Char) (l : List Char) (h : ¬ x = '\\') :
    ical_unescape (x :: l) = x :: ical_unescape l := by
  rw [ical_unescape.eq_def]
  split
  · simp_all
  · rename_i heq; rw [List.cons.injEq] at heq; exact absurd heq.1 h
  · rename_i heq; rw [List.cons.injEq] at heq; rw [heq.1, heq.2]

theorem ical_unescape_ics_escape (l : List Char) :
    ical_unescape (ics_escape l) = l := by
  induction l with
  | nil => rfl
  | cons x xs ih =>
      rw [ics_escape_cons]
      by_cases h1 : x = '\\'
      · subst h1; simpa [escChar, ical_unescape] using ih
      · by_cases h2 : x = ','
        · subst h2; simpa [escChar, ical_unescape] using ih
        · by_cases h3 : x = ';'
          · subst h3; simpa [escChar, ical_unescape] using ih
          · by_cases h4 : x = '\n'
            · subst h4; simpa [escChar, ical_unescape] using ih
            · rw [show escChar x = [x] by simp [escChar, h1, h2, h3, h4],
                List.singleton_append, ical_unescape_cons_ne x _ h1, ih]

/-- C8: `_ics_escape` (backslash replaced first, then comma, semicolon and
newline) is inverted by compliant iCalendar unescaping on every text, and
is therefore injective. -/
theorem C8_escape_roundtrip_and_injective :
    (∀ s : String, ical_unescape (ics_escapeS s).data = s.data) ∧
    (∀ s t : String, ics_escapeS s = ics_escapeS t → s = t) := by
  constructor
  · intro s
    simpa [ics_escapeS] using ical_unescape_ics_escape s.data
  · intro s t h
    have hdata : ics_escape s.data = ics_escape t.data := congrArg String.data h
    have : s.data = t.data := by
      have := congrArg ical_unescape hdata
      rwa [ical_unescape_ics_escape, ical_unescape_ics_escape] at this
    cases s; cases t; exact congrArg String.mk this

/-- Witness for C8 at a description containing a comma, a semicolon and a
backslash. -/
theorem C8_witness :
    ical_unescape (ics_escapeS "a,b;c\\d").data = "a,b;c\\d".data ∧ ("x,y" : String) = "x,y" :=
  ⟨C8_escape_roundtrip_and_injective.1 "a,b;c\\d",
   C8_escape_roundtrip_and_injective.2 "x,y" "x,y" (by rfl)⟩

theorem digitVal_le_nine (c : Char) (h : isDig c = true) : digitVal c ≤ 9 := by
  unfold isDig at h
  unfold digitVal
  simp only [Bool.and_eq_true, decide_eq_true_eq] at h
  omega

theorem matchHM1_bounds (cs : List Char) (h mn : Nat) (r : List Char)
    (hm : matchHM1 cs = some (h, mn, r)) : h ≤ 9 ∧ mn ≤ 99 := by
  unfold matchHM1 at hm
  split at hm
  · split at hm
    · rename_i a b c d rest hcond
      simp only [Bool.and_eq_true] at hcond
      obtain ⟨⟨⟨ha, _⟩, hc⟩, hd⟩ := hcond
      have h1 := digitVal_le_nine a ha
      have h2 := digitVal_le_nine c hc
      have h3 := digitVal_le_nine d hd
      simp only [Option.some.injEq, Prod.mk.injEq] at hm
      omega
    · exact absurd hm (by simp)
  · exact absurd hm (by simp)

theorem matchHM_bounds (cs : List Char) (h mn : Nat) (r : List Char)
    (hm : matchHM cs = some (h, mn, r)) : h ≤ 99 ∧ mn ≤ 99 := by
  unfold matchHM at hm
  split at hm
  · split at hm
    · rename_i a b c d e rest hcond
      simp only [Bool.and_eq_true] at hcond
      obtain ⟨⟨⟨⟨ha, hb⟩, _⟩, hd⟩, he⟩ := hcond
      have h1 := digitVal_le_nine a ha
      have h2 := digitVal_le_nine b hb
      have h3 := digitVal_le_nine d hd
      have h4 := digitVal_le_nine e he
      simp only [Option.some.injEq, Prod.mk.injEq] at hm
      omega
    · have := matchHM1_bounds _ _ _ _ hm
      omega
  · have := matchHM1_bounds _ _ _ _ hm
    omega

theorem match12_bounds (cs : List Char) (h mn : Nat) (pm : Bool)
    (hm : match12 cs = some (h, mn, pm)) : h ≤ 99 ∧ mn ≤ 99 := by
  unfold match12 at hm
  split at hm
  · rename_i h0 mn0 rest heq
    split at hm
    · simp only [Option.some.injEq, Prod.mk.injEq] at hm
      obtain ⟨rfl, rfl, _⟩ := hm
      exact matchHM_bounds _ _ _ _ heq
    · exact absurd hm (by simp)
  · exact absurd hm (by simp)

/-- Counterexample for C9: the bare input `99:99` parses to `(99, 99)`,
outside the claimed 0–23 hour and 0–59 minute ranges. -/
theorem C9_counterexample :
    parse_time_str "99:99" = some (99, 99) ∧ ¬(99 ≤ 23 ∧ 99 ≤ 59) := by
  constructor
  · rfl
  · decide

/-- C9 (amended): `_parse_time` validates only the shape of its input, not
the ranges; the invariant actually guaranteed by the one-or-two-digit hour
field and the two-digit minute field is hour at most 111 (two digits plus
the 12-hour PM offset) and minute at most 99.  The claimed 0–23 and 0–59
ranges fail, for example on the bare input `99:99`. -/
theorem C9_amended (s : String) (h mn : Nat)
    (hp : parse_time_str s = some (h, mn)) : h ≤ 111 ∧ mn ≤ 99 := by
  unfold parse_time_str at hp
  dsimp only at hp
  split at hp
  · exact absurd hp (by simp)
  · split at hp
    · rename_i h0 mn0 pm heq
      have hb := match12_bounds _ _ _ _ heq
      simp only [Option.some.injEq, Prod.mk.injEq] at hp
      split at hp
      · omega
      · split at hp <;> omega
    · split at hp
      · rename_i h0 mn0 rest heq
        have hb := matchHM_bounds _ _ _ _ heq
        simp only [Option.some.injEq, Prod.mk.injEq] at hp
        omega
      · exact absurd hp (by simp)

/-- Witness for C9 at the concrete input `99:99 PM`. -/
theorem C9_witness : (111 : Nat) ≤ 111 ∧ (99 : Nat) ≤ 99 :=
  C9_amended "99:99 PM" 111 99 (by rfl)

/-- Counterexample for C3: on the mixed-casing marker `Am` the 12-hour
regex (whose alternation is case-sensitive) does not match, the bare
hour/minute branch fires, and `12:00 Am` yields `(12, 0)` instead of the
claimed midnight `(0, 0)`. -/
theorem C3_counterexample :
    parse_time_str "12:00 Am" = some (12, 0) ∧
      parse_time_str "12:00 Am" ≠ some (0, 0) := by
  constructor
  · rfl
  · intro hc
    have : some ((12:Nat), (0:Nat)) = some ((0:Nat), (0:Nat)) := by
      rw [← hc]; rfl
    simp at this

theorem isDig_digitCharN (n : Nat) : isDig (digitCharN n) = true := by
  unfold digitCharN
  split <;> decide

theorem isPySpace_digitCharN (n : Nat) : isPySpace (digitCharN n) = false := by
  unfold digitCharN
  split <;> decide

theorem digitVal_digitCharN (n : Nat) (h : n ≤ 9) : digitVal (digitCharN n) = n := by
  interval_cases n <;> rfl

theorem skipPySpaces_ws_append (ws l : List Char)
    (hws : ∀ c ∈ ws, isPySpace c = true)
    (hl : ∀ c, l.head? = some c → isPySpace c = false) :
    skipPySpaces (ws ++ l) = l := by
  induction ws with
  | nil =>
      cases l with
      | nil => rfl
      | cons x xs =>
          simp only [List.nil_append, skipPySpaces, List.dropWhile_cons]
          rw [hl x rfl]
          simp
  | cons w wtail ih =>
      simp only [List.cons_append, skipPySpaces, List.dropWhile_cons]
      rw [hws w (by simp)]
      simpa [skipPySpaces] using ih (fun c hc => hws c (by simp [hc]))

theorem pyStrip_eq_self (l : List Char)
    (hh : ∀ c, l.head? = some c → isPySpace c = false)
    (hl : ∀ c, l.getLast? = some c → isPySpace c = false) :
    pyStrip l = l := by
  unfold pyStrip
  have h1 : l.dropWhile isPySpace = l := by
    cases l with
    | nil => rfl
    | cons x xs =>
        rw [List.dropWhile_cons, hh x rfl]
        simp
  rw [h1]
  have h2 : l.reverse.dropWhile isPySpace = l.reverse := by
    cases hr : l.reverse with
    | nil => rfl
    | cons y ys =>
        have hy : l.getLast? = some y := by
          rw [← List.head?_reverse, hr]; rfl
        rw [List.dropWhile_cons, hl y hy]
        simp
  rw [h2, List.reverse_reverse]

/-- C3 (amended): the source's AM/PM alternation is case-sensitive
(`AM|PM|am|pm`), so the claim holds for the two uniform casings of each
marker but fails for mixed casings such as `Am` (which fall through to the
bare 24-hour branch, see the counterexample).  For every hour 1–12 (written
with one digit when at most 9, or zero-padded to two digits), minute 0–59,
optional whitespace run, and marker `AM`, `am`, `PM` or `pm`, `_parse_time`
returns the correct 24-hour pair, with `12 AM` giving hour 0 and `12 PM`
giving hour 12. -/
theorem C3_amended (h m : Nat) (twoDigit pm lower : Bool) (ws : List Char)
    (hh1 : 1 ≤ h) (hh2 : h ≤ 12) (hmn : m ≤ 59)
    (hws : ∀ c ∈ ws, isPySpace c = true)
    (h1d : twoDigit = false → h ≤ 9) :
    parse_time_str (String.mk (hourChars twoDigit h ++ ':'
        :: (minChars m ++ ws ++ markChars pm lower)))
      = some (to24 pm h, m) := by
  have hmark_ne : markChars pm lower ≠ [] := by
    cases pm <;> cases lower <;> simp [markChars]
  have hmark_head : ∀ c, (markChars pm lower).head? = some c → isPySpace c = false := by
    cases pm <;> cases lower <;>
      (intro c hc; simp [markChars] at hc; subst hc; decide)
  have hmark_last : ∀ c, (markChars pm lower).getLast? = some c → isPySpace c = false := by
    cases pm <;> cases lower <;>
      (intro c hc; simp [markChars] at hc; subst hc; decide)
  have hAMPM : matchAMPM (markChars pm lower) = some pm := by
    cases pm <;> cases lower <;> rfl
  have htail_ne : ws ++ markChars pm lower ≠ [] := by
    intro hc
    rcases List.append_eq_nil.mp hc with ⟨-, h2⟩
    exact hmark_ne h2
  obtain ⟨y, ys, hys⟩ := List.exists_cons_of_ne_nil htail_ne
  have hskip : skipPySpaces (ws ++ markChars pm lower) = markChars pm lower :=
    skipPySpaces_ws_append _ _ hws hmark_head
  have hhd : h / 10 ≤ 9 := by omega
  have hhm : h % 10 ≤ 9 := by omega
  have hmd : m / 10 ≤ 9 := by omega
  have hmm : m % 10 ≤ 9 := by omega
  have hconv :
      (if (pm && decide (h ≠ 12)) = true then h + 12
       else if (!pm && decide (h = 12)) = true then 0 else h) = to24 pm h := by
    cases pm <;> by_cases h12 : h = 12 <;> simp [to24, h12]
  set L := hourChars twoDigit h ++ ':' :: (minChars m ++ ws ++ markChars pm lower) with hL
  obtain ⟨d, hd⟩ : ∃ d, (markChars pm lower).getLast? = some d := by
    cases pm <;> cases lower <;> simp [markChars]
  have hlast : ∀ c, L.getLast? = some c → isPySpace c = false := by
    intro c hc
    have hLlast : L.getLast? = some d := by
      rw [hL,
          show (':' :: (minChars m ++ ws ++ markChars pm lower))
            = (':' :: (minChars m ++ ws)) ++ markChars pm lower from by simp,
          ← List.append_assoc, List.getLast?_append, hd]
      rfl
    rw [hLlast] at hc
    cases hc
    exact hmark_last d hd
  have hhead : ∀ c, L.head? = some c → isPySpace c = false := by
    intro c hc
    rw [hL] at hc
    cases twoDigit <;> simp [hourChars] at hc <;> rw [← hc] <;>
      exact isPySpace_digitCharN _
  have hstrip : pyStrip L = L := pyStrip_eq_self L hhead hlast
  have hLne : ¬ L.isEmpty = true := by
    rw [hL]
    cases twoDigit <;> simp [hourChars]
  show parse_time_str (String.mk L) = some (to24 pm h, m)
  unfold parse_time_str
  dsimp only
  rw [if_neg hLne, hstrip]
  cases twoDigit with
  | true =>
      have hLc : L = digitCharN (h / 10) :: digitCharN (h % 10) :: ':'
          :: digitCharN (m / 10) :: digitCharN (m % 10)
          :: (ws ++ markChars pm lower) := by
        rw [hL]; simp [hourChars, minChars]
      rw [hLc]
      unfold match12
      rw [show matchHM (digitCharN (h / 10) :: digitCharN (h % 10) :: ':'
            :: digitCharN (m / 10) :: digitCharN (m % 10)
            :: (ws ++ markChars pm lower))
          = some (10 * digitVal (digitCharN (h / 10)) + digitVal (digitCharN (h % 10)),
                  10 * digitVal (digitCharN (m / 10)) + digitVal (digitCharN (m % 10)),
                  ws ++ markChars pm lower) from by
        unfold matchHM
        simp [isDig_digitCharN]]
      rw [digitVal_digitCharN _ hhd, digitVal_digitCharN _ hhm,
          digitVal_digitCharN _ hmd, digitVal_digitCharN _ hmm,
          Nat.div_add_mod, Nat.div_add_mod]
      dsimp only
      rw [hskip, hAMPM]
      dsimp only
      rw [hconv]
  | false =>
      have hle9 : h ≤ 9 := h1d rfl
      have hLc : L = digitCharN h :: ':' :: digitCharN (m / 10) :: digitCharN (m % 10)
          :: y :: ys := by
        rw [hL, ← hys]; simp [hourChars, minChars]
      rw [hLc]
      unfold match12
      rw [show matchHM (digitCharN h :: ':' :: digitCharN (m / 10) :: digitCharN (m % 10)
            :: y :: ys)
          = some (digitVal (digitCharN h),
                  10 * digitVal (digitCharN (m / 10)) + digitVal (digitCharN (m % 10)),
                  y :: ys) from by
        unfold matchHM matchHM1
        simp [isDig_digitCharN, show isDig ':' = false from rfl]]
      rw [digitVal_digitCharN _ hle9, digitVal_digitCharN _ hmd,
          digitVal_digitCharN _ hmm, Nat.div_add_mod]
      dsimp only
      rw [show skipPySpaces (y :: ys) = markChars pm lower from by rw [← hys]; exact hskip]
      rw [hAMPM]
      dsimp only
      rw [hconv]

/-- Witness for C3 at the concrete inputs `12:00 AM` and `02:30pm`. -/
theorem C3_witness :
    parse_time_str (String.mk (hourChars true 12 ++ ':'
        :: (minChars 0 ++ [' '] ++ markChars false false))) = some (to24 false 12, 0) ∧
    parse_time_str (String.mk (hourChars true 2 ++ ':'
        :: (minChars 30 ++ [] ++ markChars true true))) = some (to24 true 2, 30) :=
  ⟨C3_amended 12 0 true false false [' '] (by decide) (by decide) (by decide)
    (by intro c hc; simp at hc; subst hc; rfl) (by intro hc; cases hc),
   C3_amended 2 30 true true true [] (by decide) (by decide) (by decide)
    (by intro c hc; cases hc) (by intro hc; cases hc)⟩

/-- Counterexample for C1: a section mapping on the
`data`/`schedule`/`sections` path with no `isRegistered` key is dropped by
`_extract_sections` (the filter's default is `False`), so it does not appear
in the extractor's result list as the claim states. -/
theorem C1_counterexample :
    extract_sections (mkSchedulePayload [sectionNoFlag]) = [] ∧
      sectionNoFlag ∉ extract_sections (mkSchedulePayload [sectionNoFlag]) := by
  refine ⟨rfl, ?_⟩
  rw [show extract_sections (mkSchedulePayload [sectionNoFlag]) = [] from rfl]
  simp

/-- C1 (amended): `_extract_sections` fails closed, not open: a section
reached through the `data`/`schedule`/`sections` path is retained exactly
when its `isRegistered` value is truthy, so an entry lacking the key is
dropped (the `dict.get` default is `False`), and an entry whose flag is
present and false is dropped as well. -/
theorem C1_amended (kvs : List (String × Json)) :
    extract_sections (mkSchedulePayload [Json.obj kvs]) =
      (if truthy (jGetD kvs "isRegistered" (.bool false)) = true
       then [Json.obj kvs] else []) := by
  have hred : extract_sections (mkSchedulePayload [Json.obj kvs])
      = List.filter (fun s => match s with
          | Json.obj skvs => truthy (jGetD skvs "isRegistered" (.bool false))
          | _ => false) [Json.obj kvs] := rfl
  rw [hred, List.filter_singleton]
  cases htr : truthy (jGetD kvs "isRegistered" (.bool false)) <;> simp [htr]

/-- C2: the claim that no exception escapes `parse_schedule` fails — on the
JSON-valid payload `[{"startTime": 1}]` the fallback keeps the mapping, and
`_parse_time` calls `.strip()` on the integer `1`, raising
`AttributeError`. -/
theorem C2_failing_input :
    parse_schedule payloadStartTimeNum = .error "AttributeError" := by rfl

/-- C7: the double-encoding unwrap happens before extraction — for every
payload `P` and every JSON text `s` decoding to `P`, running the pipeline on
the string-wrapped body `Json.str s` gives exactly the record list of
running the parse on `P` itself. -/
theorem C7_unwrap_before_extraction (s : String) (P : Json)
    (h : json_loads s = .ok P) :
    fetch_parse (Json.str s) = parse_schedule P := by
  unfold fetch_parse unwrap_response
  dsimp only
  rw [h]
  rfl

/-- Witness for C7 at a concrete double-encoded body. -/
theorem C7_witness :
    fetch_parse (Json.str "[[1, 2], \"x\", true, null]")
      = parse_schedule (Json.arr [Json.arr [Json.num 1, Json.num 2],
          Json.str "x", Json.bool true, Json.null]) :=
  C7_unwrap_before_extraction "[[1, 2], \"x\", true, null]"
    (Json.arr [Json.arr [Json.num 1, Json.num 2],
      Json.str "x", Json.bool true, Json.null]) (by rfl)

theorem parse_date_ok (v : Json) (h : dateOkB v = true) :
    parse_date v = .ok (jsonDateOpt v) := by
  cases v with
  | str s =>
      by_cases hs : s = ""
      · subst hs; rfl
      · unfold parse_date jsonDateOpt
        rw [show truthy (Json.str s) = true from by simp [truthy, hs]]
        rfl
  | null => rfl
  | bool b => cases b with
      | false => rfl
      | true => exact absurd h (by simp [dateOkB, truthy])
  | num n =>
      unfold parse_date jsonDateOpt
      rw [show truthy (Json.num n) = false from by
        unfold dateOkB at h; simpa using h]
      rfl
  | arr xs =>
      unfold parse_date jsonDateOpt
      rw [show truthy (Json.arr xs) = false from by
        unfold dateOkB at h; simpa using h]
      rfl
  | obj kvs =>
      unfold parse_date jsonDateOpt
      rw [show truthy (Json.obj kvs) = false from by
        unfold dateOkB at h; simpa using h]
      rfl

theorem collectDates_ok (courses : List Course)
    (hwf : ∀ c ∈ courses, courseDatesOk c = true) :
    collectDates courses = .ok (startDateOrds courses, endDateOrds courses) := by
  induction courses with
  | nil => rfl
  | cons c rest ih =>
      have hc := hwf c (by simp)
      unfold courseDatesOk at hc
      simp only [Bool.and_eq_true] at hc
      unfold collectDates
      rw [parse_date_ok c.startDate hc.1, parse_date_ok c.endDate hc.2,
          ih (fun x hx => hwf x (by simp [hx]))]
      dsimp only
      unfold startDateOrds endDateOrds
      rw [List.filterMap_cons, List.filterMap_cons]
      cases hsd : jsonDateOpt c.startDate <;> cases hed : jsonDateOpt c.endDate <;>
        rfl

/-- C5: for courses whose raw date fields are strings (or falsy), the
bounds estimator succeeds; when some `startDate` parses (each value tried
against month/day/year, ISO, day/month/year, year/month/day in order), the
anchor is the Sunday on or before the earliest parsed date — a Sunday, at
most six days before it, and equal to it when that date is itself a
Sunday; when none parses, the anchor is the fixed fallback
February 8, 2026. -/
theorem C5_bounds_anchor (courses : List Course)
    (hwf : ∀ c ∈ courses, courseDatesOk c = true) :
    ∃ a u, derive_semester_bounds courses = .ok (a, u) ∧
      (startDateOrds courses ≠ [] →
        weekdayOrd a = 6 ∧ a ≤ pyMin (startDateOrds courses) ∧
        pyMin (startDateOrds courses) < a + 7 ∧
        (weekdayOrd (pyMin (startDateOrds courses)) = 6 →
          a = pyMin (startDateOrds courses))) ∧
      (startDateOrds courses = [] → a = toOrdinal 2026 2 8) := by
  unfold derive_semester_bounds
  rw [collectDates_ok courses hwf]
  dsimp only
  refine ⟨_, _, rfl, ?_, ?_⟩
  · intro hne
    rw [if_pos (show (!(startDateOrds courses).isEmpty) = true from by
      simpa using hne)]
    set E := pyMin (startDateOrds courses) with hE
    unfold weekdayOrd
    omega
  · intro h0
    rw [if_neg (show ¬ (!(startDateOrds courses).isEmpty) = true from by
      simp [h0])]

/-- Witness for C5 at records dated `3/10/2026` and `2/15/2026`: the
derived anchor is February 15, 2026 itself, the Sunday on or before the
earlier date. -/
theorem C5_witness :
    ∃ a u, derive_semester_bounds
        [courseWithDates "3/10/2026" "", courseWithDates "2/15/2026" ""] = .ok (a, u) ∧
      weekdayOrd a = 6 ∧ a = toOrdinal 2026 2 15 := by
  obtain ⟨a, u, heq, h1, -⟩ :=
    C5_bounds_anchor [courseWithDates "3/10/2026" "", courseWithDates "2/15/2026" ""]
      (by decide)
  obtain ⟨hwd, -, -, hsun⟩ := h1 (by decide)
  refine ⟨a, u, heq, hwd, ?_⟩
  rw [hsun (by decide)]
  decide

theorem byday_weekday_lt_7 (dc : String) (w : Nat)
    (h : BYDAY_TO_WEEKDAY.lookup dc = some w) : w < 7 := by
  simp only [BYDAY_TO_WEEKDAY, List.lookup] at h
  repeat' split at h
  all_goals (first | (injection h with h; omega) | exact Option.noConfusion h)

theorem emod_delta (w ws : Nat) (hws : ws < 7) :
    (((w : Int) - (ws : Int)) % 7).toNat = (w + 7 - ws) % 7 := by
  omega

theorem firstOcc_spec (s w : Nat) (hw : w < 7) :
    s ≤ s + (((w : Int) - (weekdayOrd s : Int)) % 7).toNat ∧
    s + (((w : Int) - (weekdayOrd s : Int)) % 7).toNat < s + 7 ∧
    weekdayOrd (s + (((w : Int) - (weekdayOrd s : Int)) % 7).toNat) = w ∧
    (∀ o2, s ≤ o2 → weekdayOrd o2 = w →
      s + (((w : Int) - (weekdayOrd s : Int)) % 7).toNat ≤ o2) := by
  unfold weekdayOrd
  rw [emod_delta w ((s + 6) % 7) (by omega)]
  refine ⟨by omega, by omega, by omega, fun o2 ha hb => by omega⟩

/-- C6: for an emitted record with a recognized BYDAY code, the DTSTART
date is the earliest date on or after the anchor whose weekday equals the
record's day code (an offset of 0–6 days), and the RRULE UNTIL value is the
record's own parsed end date reformatted as `YYYYMMDD` when it parses, else
the estimator's global default until-string. -/
theorem C6_dtstart_and_until (c : Course) (semesterStart : Nat)
    (defaultUntil stamp uid : String) (dc : String) (w : Nat)
    (h1 : c.dayCode = some dc) (h2 : BYDAY_TO_WEEKDAY.lookup dc = some w)
    (h3 : dateOkB c.endDate = true) :
    ∃ lines o u, eventBlock c semesterStart defaultUntil stamp uid = .ok lines ∧
      lines.get? 3 = some ("DTSTART:" ++ (formatYMD o ++ "T" ++ format_ics_time c.startTime)) ∧
      lines.get? 5 = some ("RRULE:FREQ=WEEKLY;BYDAY=" ++ (dc ++ (";UNTIL=" ++ (u ++ "T000000Z")))) ∧
      semesterStart ≤ o ∧ o < semesterStart + 7 ∧ weekdayOrd o = w ∧
      (∀ o2, semesterStart ≤ o2 → weekdayOrd o2 = w → o ≤ o2) ∧
      ((∃ ed, jsonDateOpt c.endDate = some ed ∧ u = formatYMD ed) ∨
        (jsonDateOpt c.endDate = none ∧ u = defaultUntil)) := by
  obtain ⟨ha, hb, hc, hd⟩ := firstOcc_spec semesterStart w (byday_weekday_lt_7 dc w h2)
  unfold eventBlock
  rw [parse_date_ok c.endDate h3, h1]
  dsimp only [Option.getD]
  rw [h2]
  dsimp only [Option.getD]
  cases hed : jsonDateOpt c.endDate with
  | some ed =>
      exact ⟨_, _, formatYMD ed, rfl, rfl, rfl, ha, hb, hc, hd, Or.inl ⟨ed, rfl, rfl⟩⟩
  | none =>
      exact ⟨_, _, defaultUntil, rfl, rfl, rfl, ha, hb, hc, hd, Or.inr ⟨rfl, rfl⟩⟩

/-- Witness for C6 at a Wednesday course with its own end date, anchored at
Sunday, February 8, 2026. -/
theorem C6_witness :
    ∃ lines o u, eventBlock courseWednesday (toOrdinal 2026 2 8) "20260521" "S" "U"
        = .ok lines ∧
      lines.get? 3 = some ("DTSTART:" ++ (formatYMD o ++ "T"
        ++ format_ics_time courseWednesday.startTime)) ∧
      lines.get? 5 = some ("RRULE:FREQ=WEEKLY;BYDAY=" ++ ("WE" ++ (";UNTIL=" ++ (u
        ++ "T000000Z")))) ∧
      toOrdinal 2026 2 8 ≤ o ∧ o < toOrdinal 2026 2 8 + 7 ∧ weekdayOrd o = 2 ∧
      (∀ o2, toOrdinal 2026 2 8 ≤ o2 → weekdayOrd o2 = 2 → o ≤ o2) ∧
      ((∃ ed, jsonDateOpt courseWednesday.endDate = some ed ∧ u = formatYMD ed) ∨
        (jsonDateOpt courseWednesday.endDate = none ∧ u = "20260521")) :=
  C6_dtstart_and_until courseWednesday (toOrdinal 2026 2 8) "20260521" "S" "U"
    "WE" 2 (by rfl) (by rfl) (by rfl)

theorem ne_begin_of_head (l : String) (c : Char) (hc : l.data.head? = some c)
    (hb : c ≠ 'B') : l ≠ "BEGIN:VEVENT" := by
  intro h
  rw [h] at hc
  have h2 : ("BEGIN:VEVENT" : String).data.head? = some 'B' := rfl
  rw [h2] at hc
  exact hb (Option.some.inj hc).symm

theorem append_ne_begin (p r : String) (c : Char)
    (hp : p.data.head? = some c) (hb : c ≠ 'B') : (p ++ r) ≠ "BEGIN:VEVENT" := by
  apply ne_begin_of_head _ c _ hb
  rw [String.data_append]
  cases hpd : p.data with
  | nil => rw [hpd] at hp; exact absurd hp (by simp)
  | cons x xs =>
      rw [hpd] at hp
      simp only [List.head?_cons, Option.some.injEq] at hp
      subst hp
      rfl

theorem count_begin_if (cond : Prop) [Decidable cond] (s : String)
    (hs : (s == "BEGIN:VEVENT") = false) :
    List.count "BEGIN:VEVENT" (if cond then [s] else []) = 0 := by
  split
  · simp [List.count_singleton, hs]
  · rfl

theorem eventBlock_count (c : Course) (s : Nat) (du stamp uid : String)
    (h3 : dateOkB c.endDate = true) :
    ∃ lines, eventBlock c s du stamp uid = .ok lines ∧ countVEVENT lines = 1 := by
  have hu := beq_eq_false_iff_ne.mpr (append_ne_begin "UID:" uid 'U' rfl (by decide))
  have hds := beq_eq_false_iff_ne.mpr (append_ne_begin "DTSTAMP:" stamp 'D' rfl (by decide))
  have hend : (("END:VEVENT" : String) == "BEGIN:VEVENT") = false := by decide
  unfold eventBlock
  rw [parse_date_ok c.endDate h3]
  cases hed : jsonDateOpt c.endDate with
  | some ed =>
      refine ⟨_, rfl, ?_⟩
      unfold countVEVENT
      rw [List.count_append, List.count_append, List.count_append,
          count_begin_if _ _ (beq_eq_false_iff_ne.mpr
            (append_ne_begin "DESCRIPTION:" _ 'D' rfl (by decide))),
          count_begin_if _ _ (beq_eq_false_iff_ne.mpr
            (append_ne_begin "LOCATION:" _ 'L' rfl (by decide)))]
      simp [List.count_cons, hu, hds, hend,
        beq_eq_false_iff_ne.mpr (append_ne_begin "DTSTART:" _ 'D' rfl (by decide)),
        beq_eq_false_iff_ne.mpr (append_ne_begin "DTEND:" _ 'D' rfl (by decide)),
        beq_eq_false_iff_ne.mpr
          (append_ne_begin "RRULE:FREQ=WEEKLY;BYDAY=" _ 'R' rfl (by decide)),
        beq_eq_false_iff_ne.mpr (append_ne_begin "SUMMARY:" _ 'S' rfl (by decide))]
  | none =>
      refine ⟨_, rfl, ?_⟩
      unfold countVEVENT
      rw [List.count_append, List.count_append, List.count_append,
          count_begin_if _ _ (beq_eq_false_iff_ne.mpr
            (append_ne_begin "DESCRIPTION:" _ 'D' rfl (by decide))),
          count_begin_if _ _ (beq_eq_false_iff_ne.mpr
            (append_ne_begin "LOCATION:" _ 'L' rfl (by decide)))]
      simp [List.count_cons, hu, hds, hend,
        beq_eq_false_iff_ne.mpr (append_ne_begin "DTSTART:" _ 'D' rfl (by decide)),
        beq_eq_false_iff_ne.mpr (append_ne_begin "DTEND:" _ 'D' rfl (by decide)),
        beq_eq_false_iff_ne.mpr
          (append_ne_begin "RRULE:FREQ=WEEKLY;BYDAY=" _ 'R' rfl (by decide)),
        beq_eq_false_iff_ne.mpr (append_ne_begin "SUMMARY:" _ 'S' rfl (by decide))]

theorem emitLoop_count (uidf : Nat → String) (stamp : String) (s : Nat) (du : String)
    (courses : List Course)
    (hwf : ∀ c ∈ courses, dateOkB c.endDate = true) :
    ∀ i, ∃ body, emitLoop uidf stamp s du courses i = .ok body ∧
      countVEVENT body =
        (courses.filter (fun c => dayCodeTruthy c && decide (c.startTime ≠ none))).length := by
  induction courses with
  | nil => exact fun i => ⟨[], rfl, rfl⟩
  | cons c rest ih =>
      intro i
      have hrest := ih (fun x hx => hwf x (by simp [hx]))
      unfold emitLoop
      by_cases hskip : (!dayCodeTruthy c || decide (c.startTime = none)) = true
      · rw [if_pos hskip]
        obtain ⟨body, hb1, hb2⟩ := hrest i
        refine ⟨body, hb1, ?_⟩
        rw [hb2, List.filter_cons,
            show (dayCodeTruthy c && decide (c.startTime ≠ none)) = false from by
              simp only [Bool.or_eq_true, Bool.not_eq_true', decide_eq_true_eq] at hskip
              rcases hskip with h | h <;> simp [h]]
        simp
      · rw [if_neg hskip]
        obtain ⟨block, hbl, hbc⟩ := eventBlock_count c s du stamp (uidf i) (hwf c (by simp))
        obtain ⟨body, hb1, hb2⟩ := hrest (i + 1)
        refine ⟨block ++ body, ?_, ?_⟩
        · rw [hbl, hb1]; rfl
        · unfold countVEVENT
          rw [List.count_append]
          have hpred : (dayCodeTruthy c && decide (c.startTime ≠ none)) = true := by
            simp only [Bool.or_eq_true, Bool.not_eq_true', decide_eq_true_eq] at hskip
            push_neg at hskip
            simp [hskip.1, hskip.2]
          rw [List.filter_cons, hpred]
          unfold countVEVENT at hbc hb2
          rw [hbc, hb2]
          simp
          omega

theorem string_isEmpty_false_of_ne (s : String) (h : s ≠ "") : s.isEmpty = false := by
  rw [Bool.eq_false_iff]
  intro he
  exact h ((String.isEmpty_iff _).mp he)

/-- C4: records whose raw dates are strings (or falsy) and whose day code
is never the empty string — which includes every MeetingRecord, whose
`dayCode` is a BYDAY code or `None` — produce one VEVENT block if and only
if the day code is non-none and the parsed start time is non-none: the
number of `BEGIN:VEVENT` lines equals the number of records passing that
test.  In particular a record with an unrecognized day string such as
`N/A` (so `dayCode = None`) and a valid parsed time contributes zero
blocks. -/
theorem C4_vevent_iff (courses : List Course) (stamp : String) (uidf : Nat → String)
    (hwf : ∀ c ∈ courses, courseDatesOk c = true)
    (hdc : ∀ c ∈ courses, c.dayCode ≠ some "") :
    ∃ lines, generate_ics_lines courses stamp uidf = .ok lines ∧
      countVEVENT lines =
        (courses.filter (fun c =>
          decide (c.dayCode ≠ none) && decide (c.startTime ≠ none))).length := by
  obtain ⟨⟨s, du⟩, hder⟩ : ∃ p, derive_semester_bounds courses = .ok p := by
    unfold derive_semester_bounds
    rw [collectDates_ok courses hwf]
    exact ⟨_, rfl⟩
  obtain ⟨body, hb1, hb2⟩ := emitLoop_count uidf stamp s du courses
    (fun c hc => by
      have h := hwf c hc
      unfold courseDatesOk at h
      simp only [Bool.and_eq_true] at h
      exact h.2) 0
  unfold generate_ics_lines
  rw [hder]
  refine ⟨icsHeader ++ body ++ ["END:VCALENDAR"], ?_, ?_⟩
  · change Except.bind (emitLoop uidf stamp s du courses 0)
        (fun b => Except.ok (icsHeader ++ b ++ ["END:VCALENDAR"]))
      = Except.ok (icsHeader ++ body ++ ["END:VCALENDAR"])
    rw [hb1]
    rfl
  unfold countVEVENT
  rw [List.count_append, List.count_append,
      show List.count "BEGIN:VEVENT" icsHeader = 0 from rfl,
      show List.count "BEGIN:VEVENT" ["END:VCALENDAR"] = 0 from rfl]
  unfold countVEVENT at hb2
  have hfe : List.filter (fun c => dayCodeTruthy c && decide (c.startTime ≠ none)) courses
      = List.filter (fun c => decide (c.dayCode ≠ none)
          && decide (c.startTime ≠ none)) courses :=
    List.filter_congr (fun c hc => by
      have hne := hdc c hc
      cases hcd : c.dayCode with
      | none => simp [dayCodeTruthy, hcd]
      | some sd =>
          rw [hcd] at hne
          have hsd : sd ≠ "" := fun he => hne (by rw [he])
          simp [dayCodeTruthy, hcd, string_isEmpty_false_of_ne sd hsd])
  rw [hb2, hfe]
  omega

/-- Witness for C4: the `N/A`-day payload builds exactly one record, with
`dayCode = None` and start time `(10, 0)`, and the generated calendar for
it contains zero VEVENT blocks. -/
theorem C4_witness :
    parse_schedule payloadDayNA = .ok [courseDayNA] ∧
    (∃ lines, generate_ics_lines [courseDayNA] "S" (fun _ => "U") = .ok lines ∧
      countVEVENT lines = 0) := by
  refine ⟨rfl, ?_⟩
  obtain ⟨lines, h1, h2⟩ := C4_vevent_iff [courseDayNA] "S" (fun _ => "U")
    (by intro c hc; simp at hc; subst hc; rfl)
    (by intro c hc; simp at hc; subst hc; simp [courseDayNA])
  refine ⟨lines, h1, ?_⟩
  rw [h2]
  rfl

theorem mem_dropWhile_of_neg (p : Char → Bool) (l : List Char) (ch : Char)
    (hch : p ch = false) (h : ch ∈ l) : ch ∈ l.dropWhile p := by
  induction l with
  | nil => exact absurd h (by simp)
  | cons x xs ih =>
      rw [List.dropWhile_cons]
      split
      · rename_i hx
        rcases List.mem_cons.mp h with rfl | hxs
        · rw [hx] at hch; cases hch
        · exact ih hxs
      · exact h

theorem mem_pyStrip (l : List Char) (ch : Char)
    (hch : isPySpace ch = false) (h : ch ∈ l) : ch ∈ pyStrip l := by
  unfold pyStrip
  rw [List.mem_reverse]
  apply mem_dropWhile_of_neg _ _ _ hch
  rw [List.mem_reverse]
  exact mem_dropWhile_of_neg _ _ _ hch h

/-- Counterexample for C10: a record whose `building` is `Eng` followed by
a newline is emitted, but the newline is removed by the `.strip()` on the
location text, so it appears in no line of the calendar at all — neither
escaped nor unescaped. -/
theorem C10_counterexample :
    generate_ics_lines [courseNewlineBuilding] "STAMP" (fun _ => "U1")
      = .ok ["BEGIN:VCALENDAR", "VERSION:2.0",
        "PRODID:-//NUSched//Schedule Export//EN", "CALSCALE:GREGORIAN",
        "METHOD:PUBLISH", "X-WR-CALNAME:NU Schedule",
        "X-WR-TIMEZONE:Africa/Cairo", "BEGIN:VEVENT", "UID:U1",
        "DTSTAMP:STAMP", "DTSTART:20260209T100000", "DTEND:20260209T110000",
        "RRULE:FREQ=WEEKLY;BYDAY=MO;UNTIL=20260521T000000Z", "SUMMARY:Algo",
        "LOCATION:Eng", "END:VEVENT", "END:VCALENDAR"] ∧
    '\n' ∈ courseNewlineBuilding.building.data ∧
    ∀ l ∈ (["BEGIN:VCALENDAR", "VERSION:2.0",
        "PRODID:-//NUSched//Schedule Export//EN", "CALSCALE:GREGORIAN",
        "METHOD:PUBLISH", "X-WR-CALNAME:NU Schedule",
        "X-WR-TIMEZONE:Africa/Cairo", "BEGIN:VEVENT", "UID:U1",
        "DTSTAMP:STAMP", "DTSTART:20260209T100000", "DTEND:20260209T110000",
        "RRULE:FREQ=WEEKLY;BYDAY=MO;UNTIL=20260521T000000Z", "SUMMARY:Algo",
        "LOCATION:Eng", "END:VEVENT", "END:VCALENDAR"] : List String),
      '\n' ∉ l.data :=
  ⟨by rfl, by decide, by decide⟩

/-- C10 (amended): the emitter escapes only the DESCRIPTION value.  The
SUMMARY line is the raw course name and subtype with no escaping, so any
comma, semicolon, backslash or newline in them appears verbatim there; a
comma, semicolon or backslash in building or room survives into the
LOCATION line, which is then present.  A newline in building or room is
not covered: the location text is whitespace-stripped, so a boundary
newline can disappear from the calendar entirely (see the
counterexample). -/
theorem C10_amended (c : Course) (s : Nat) (du stamp uid : String)
    (h3 : dateOkB c.endDate = true) :
    ∃ lines, eventBlock c s du stamp uid = .ok lines ∧
      ("SUMMARY:" ++ summaryOf c) ∈ lines ∧
      (∀ ch, (ch = ',' ∨ ch = ';' ∨ ch = '\\' ∨ ch = '\n') →
        (ch ∈ c.courseName.data ∨ ch ∈ c.eventSubType.data) →
        ch ∈ (summaryOf c).data) ∧
      (∀ ch, (ch = ',' ∨ ch = ';' ∨ ch = '\\') →
        (ch ∈ c.building.data ∨ ch ∈ c.room.data) →
        ("LOCATION:" ++ locationOf c) ∈ lines ∧ ch ∈ (locationOf c).data) := by
  have hsummem : ∀ ch, (ch ∈ c.courseName.data ∨ ch ∈ c.eventSubType.data) →
      ch ∈ (summaryOf c).data := by
    intro ch hin
    unfold summaryOf
    split
    · rw [String.data_append, String.data_append]
      rcases hin with h | h
      · exact List.mem_append_left _ (List.mem_append_left _ h)
      · exact List.mem_append_right _ h
    · rename_i hsub
      rcases hin with h | h
      · exact h
      · rw [show c.eventSubType = "" from (String.isEmpty_iff _).mp (by
            simpa using hsub)] at h
        exact absurd h (by simp)
  have hlocmem : ∀ ch, isPySpace ch = false →
      (ch ∈ c.building.data ∨ ch ∈ c.room.data) → ch ∈ (locationOf c).data := by
    intro ch hws hin
    unfold locationOf pyStripS
    apply mem_pyStrip _ _ hws
    rw [String.data_append, String.data_append]
    rcases hin with h | h
    · exact List.mem_append_left _ (List.mem_append_left _ h)
    · exact List.mem_append_right _ h
  unfold eventBlock
  rw [parse_date_ok c.endDate h3]
  cases hed : jsonDateOpt c.endDate with
  | some ed =>
      refine ⟨_, rfl, by simp, fun ch _ hin => hsummem ch hin, ?_⟩
      intro ch hch hin
      have hws : isPySpace ch = false := by
        rcases hch with rfl | rfl | rfl <;> decide
      have hmem := hlocmem ch hws hin
      have hne : locationOf c ≠ "" := by
        intro he
        rw [he] at hmem
        exact absurd hmem (by simp)
      refine ⟨?_, hmem⟩
      apply List.mem_append_left
      apply List.mem_append_right
      rw [if_pos (by simp [string_isEmpty_false_of_ne _ hne])]
      simp
  | none =>
      refine ⟨_, rfl, by simp, fun ch _ hin => hsummem ch hin, ?_⟩
      intro ch hch hin
      have hws : isPySpace ch = false := by
        rcases hch with rfl | rfl | rfl <;> decide
      have hmem := hlocmem ch hws hin
      have hne : locationOf c ≠ "" := by
        intro he
        rw [he] at hmem
        exact absurd hmem (by simp)
      refine ⟨?_, hmem⟩
      apply List.mem_append_left
      apply List.mem_append_right
      rw [if_pos (by simp [string_isEmpty_false_of_ne _ hne])]
      simp

/-- Witness for C10 at a record whose course name contains a comma and
whose building contains a semicolon. -/
theorem C10_witness :
    ∃ lines, eventBlock
        { courseName := "Algo, II", eventId := "", eventSubType := "", sectionId := "",
          instructors := "", day := Json.str "Monday", dayCode := some "MO",
          startTime := some (10, 0), endTime := none, startTimeStr := "",
          endTimeStr := "", building := "Eng;1", room := "",
          startDate := Json.str "", endDate := Json.str "" }
        (toOrdinal 2026 2 8) "20260521" "S" "U" = .ok lines ∧
      ("SUMMARY:" ++ summaryOf
        { courseName := "Algo, II", eventId := "", eventSubType := "", sectionId := "",
          instructors := "", day := Json.str "Monday", dayCode := some "MO",
          startTime := some (10, 0), endTime := none, startTimeStr := "",
          endTimeStr := "", building := "Eng;1", room := "",
          startDate := Json.str "", endDate := Json.str "" }) ∈ lines := by
  obtain ⟨lines, h1, h2, h3, h4⟩ := C10_amended
    { courseName := "Algo, II", eventId := "", eventSubType := "", sectionId := "",
      instructors := "", day := Json.str "Monday", dayCode := some "MO",
      startTime := some (10, 0), endTime := none, startTimeStr := "",
      endTimeStr := "", building := "Eng;1", room := "",
      startDate := Json.str "", endDate := Json.str "" }
    (toOrdinal 2026 2 8) "20260521" "S" "U" (by rfl)
  exact ⟨lines, h1, h2⟩
